import Mathlib

/-
Verification development for the ambient audio scheduling and envelope
engine of shared-env.js (the AudioManager object).

The embedding models the manager as an explicit state machine:
  - an Audio record mirrors the mutable fields of an HTMLAudioElement that
    the code reads or writes (volume, paused versus playing, currentTime,
    loop);
  - the timers array of the code becomes an explicit list of Timer records;
    setTimeout and setInterval callbacks, which are closures in the source,
    become a small inductive TimerTask datatype carrying exactly the data
    the corresponding closure captures (for an interval, the mutable step
    counter lives in the task);
  - clearTimeout on a timer id is modelled by marking the registry entry
    dead (live := false); the HTML timer semantics, under which a cleared
    timer never runs its callback, is baked into fireTimer, which runs a
    callback only for an entry that is still present and live;
  - Math.random() draws are passed in as rational parameters; hypotheses
    0 <= r < 1 state the range of Math.random();
  - arbitrary completion callbacks handed to fadeAudio are modelled by an
    opaque tag (FadeCb.user k); running such a callback appends k to a log
    of fired callbacks, which is the only observation the claims need.

Numbers are rationals: the source uses JS doubles, and the claims under
study concern exact clamping and interpolation identities, stated here in
exact arithmetic.

A second, smaller machine (FadeRun) embeds one fadeAudio interval in
isolation: its step counter, the volume it writes each tick, its liveness,
and a count of completion callback invocations. Its tick event is one
firing of the setInterval callback of fadeAudio, and its cancel event is
the clearing of that interval performed by stop.
-/

namespace SharedEnv

/-- Mutable state of an HTMLAudioElement as used by the code: volume,
playing flag (negation of paused), currentTime and the loop flag. -/
structure Audio where
  volume : ℚ
  playing : Bool
  currentTime : ℚ
  loop : Bool
deriving DecidableEq

/-- The three audio channels owned by AudioManager: waves, birds, waves2. -/
inductive ChId where
  | waves
  | birds
  | waves2
deriving DecidableEq

/-- Completion callbacks passed to fadeAudio in the source, plus an opaque
user callback tag for reasoning about arbitrary external callbacks. -/
inductive FadeCb where
  | cbNone
  | user (k : ℕ)
  | swellUp (targetVol duration fadeOutTime : ℚ)
  | swellDown
deriving DecidableEq

/-- The closures armed through setTimeout and setInterval in the source:
the bird one-shot timeout, the waves2 swell timeout, the hold timeout
inside playWaves2Swell, and a fadeAudio interval with its captured
arguments and its mutable step counter. -/
inductive TimerTask where
  | birdFire
  | waves2Start
  | hold (targetVol fadeOutTime : ℚ)
  | fade (ch : ChId) (startVol endVol : ℚ) (step : ℕ) (cb : FadeCb)
deriving DecidableEq

/-- One entry of the timers registry: the armed delay, the callback it
runs, and whether it is still live (clearTimeout sets live to false). -/
structure Timer where
  delay : ℚ
  task : TimerTask
  live : Bool
deriving DecidableEq

/-- The state of the AudioManager object. The three channel fields are
null together before init runs, which the single inited flag records. The
firedCbs list logs every opaque user completion callback that has run. -/
structure AMState where
  inited : Bool
  waves : Audio
  birds : Audio
  waves2 : Audio
  timers : List Timer
  firedCbs : List ℕ
deriving DecidableEq

/-- Clamp to the unit interval, as Math.max(0, Math.min(1, x)). -/
def clamp01 (x : ℚ) : ℚ := max 0 (min 1 x)

/-- The volume fadeAudio writes on a given step: the clamped linear
interpolation startVol + ((endVol - startVol) / 60) * step. -/
def fadeVol (startVol endVol : ℚ) (step : ℕ) : ℚ :=
  clamp01 (startVol + (endVol - startVol) / 60 * step)

/-- Delay sampled in scheduleNextBird: Math.random() * 17000 + 8000. -/
def birdDelay (r : ℚ) : ℚ := r * 17000 + 8000

/-- Delay sampled in scheduleWaves2: Math.random() * 20000 + 10000. -/
def waves2Delay (r : ℚ) : ℚ := r * 20000 + 10000

/-- The Math.random() draws available to one callback execution; the
swell body consumes up to four. -/
structure Rand where
  r1 : ℚ
  r2 : ℚ
  r3 : ℚ
  r4 : ℚ
deriving DecidableEq

/-- Default state of a freshly constructed Audio element: volume one,
paused, at time zero, not looping. -/
def freshAudio : Audio := ⟨1, false, 0, false⟩

/-- The manager state before init has run: channels null, no timers. -/
def blank : AMState := ⟨false, freshAudio, freshAudio, freshAudio, [], []⟩

/-- Read a channel of the manager. -/
def getCh (s : AMState) (c : ChId) : Audio :=
  match c with
  | .waves => s.waves
  | .birds => s.birds
  | .waves2 => s.waves2

/-- Replace a channel of the manager. -/
def setCh (s : AMState) (c : ChId) (a : Audio) : AMState :=
  match c with
  | .waves => { s with waves := a }
  | .birds => { s with birds := a }
  | .waves2 => { s with waves2 := a }

/-- Assignment audio.volume = v on a channel. -/
def setVol (s : AMState) (c : ChId) (v : ℚ) : AMState :=
  setCh s c { getCh s c with volume := v }

/-- Append a newly armed timer to the registry, as this.timers.push(t). -/
def pushTimer (s : AMState) (t : Timer) : AMState :=
  { s with timers := s.timers ++ [t] }

/-- Mark the timer at an index dead, as clearTimeout or clearInterval on
the id stored there; out of range indices are no-ops. -/
def killAt (s : AMState) (i : ℕ) : AMState :=
  match s.timers[i]? with
  | none => s
  | some t => { s with timers := s.timers.set i { t with live := false } }

namespace AudioManager

/-- AudioManager.init: allocates the three channels, sets waves to loop at
volume 0.4, birds to volume 0.6 with the ended listener wired, waves2 to
loop at volume 0. It starts no playback and does not touch the timers. -/
def init (s : AMState) : AMState :=
  { s with
    inited := true
    waves := { volume := 2/5, playing := false, currentTime := 0, loop := true }
    birds := { volume := 3/5, playing := false, currentTime := 0, loop := false }
    waves2 := { volume := 0, playing := false, currentTime := 0, loop := true } }

/-- AudioManager.scheduleNextBird: arms a one-shot timer with delay
Math.random() * 17000 + 8000 whose callback replays the birds clip. -/
def scheduleNextBird (s : AMState) (r : ℚ) : AMState :=
  pushTimer s ⟨birdDelay r, .birdFire, true⟩

/-- AudioManager.scheduleWaves2: arms a one-shot timer with delay
Math.random() * 20000 + 10000 whose callback runs playWaves2Swell. -/
def scheduleWaves2 (s : AMState) (r : ℚ) : AMState :=
  pushTimer s ⟨waves2Delay r, .waves2Start, true⟩

/-- AudioManager.fadeAudio: arms a setInterval with cadence duration / 60
driving a 60 step volume ramp on the given channel, and pushes the
interval id onto the registry. It does not cancel any existing timer. -/
def fadeAudio (s : AMState) (ch : ChId) (startVol endVol duration : ℚ)
    (cb : FadeCb) : AMState :=
  pushTimer s ⟨duration / 60, .fade ch startVol endVol 0 cb, true⟩

/-- AudioManager.start: runs init if the channels are still null, plays
the waves loop, then arms one bird timer and one waves2 timer. There is
no guard against being called while already started. -/
def start (s : AMState) (r1 r2 : ℚ) : AMState :=
  let s0 := if s.inited then s else init s
  let s1 := { s0 with waves := { s0.waves with playing := true } }
  scheduleWaves2 (scheduleNextBird s1 r1) r2

/-- AudioManager.stop: pauses each non-null channel, clears every timer id
in the registry and empties the registry. -/
def stop (s : AMState) : AMState :=
  if s.inited then
    { s with
      waves := { s.waves with playing := false }
      birds := { s.birds with playing := false }
      waves2 := { s.waves2 with playing := false }
      timers := [] }
  else
    { s with timers := [] }

/-- AudioManager.playWaves2Swell: if waves2 is non-null, rewinds and plays
it, samples a target volume, a hold duration and fade in and out times,
then starts the fade in whose completion callback arms the hold timer. -/
def playWaves2Swell (s : AMState) (rnd : Rand) : AMState :=
  if s.inited then
    let targetVol := rnd.r1 * (1/2) + 3/10
    let duration := rnd.r2 * 10000 + 8000
    let fadeInTime := rnd.r3 * 3000 + 2000
    let fadeOutTime := rnd.r4 * 3000 + 2000
    let s1 := { s with waves2 := { s.waves2 with currentTime := 0, playing := true } }
    fadeAudio s1 .waves2 0 targetVol fadeInTime (.swellUp targetVol duration fadeOutTime)
  else s

/-- Run a completion callback of fadeAudio: the absent callback does
nothing; an opaque user callback is logged; the swell fade-in completion
arms the hold timeout; the swell fade-out completion pauses waves2 and
re-arms the next swell cycle through scheduleWaves2. -/
def runCb (s : AMState) (cb : FadeCb) (rnd : Rand) : AMState :=
  match cb with
  | .cbNone => s
  | .user k => { s with firedCbs := s.firedCbs ++ [k] }
  | .swellUp targetVol duration fadeOutTime =>
      pushTimer s ⟨duration, .hold targetVol fadeOutTime, true⟩
  | .swellDown =>
      scheduleWaves2 { s with waves2 := { s.waves2 with playing := false } } rnd.r1

/-- Fire the timer stored at an index, if it exists and is still live,
executing the closure the source arms there. A one-shot entry is spent by
the firing; a fade interval advances its step, writes the interpolated
volume, and on the sixtieth step clears itself and runs its callback. -/
def fireTimer (s : AMState) (i : ℕ) (rnd : Rand) : AMState :=
  match s.timers[i]? with
  | none => s
  | some t =>
    if t.live then
      match t.task with
      | .birdFire =>
          let s1 := killAt s i
          if s1.inited then
            { s1 with birds := { s1.birds with currentTime := 0, playing := true } }
          else s1
      | .waves2Start => playWaves2Swell (killAt s i) rnd
      | .hold targetVol fadeOutTime =>
          fadeAudio (killAt s i) .waves2 targetVol 0 fadeOutTime .swellDown
      | .fade ch startVol endVol step cb =>
          let step1 := step + 1
          let s1 := setVol s ch (fadeVol startVol endVol step1)
          if 60 ≤ step1 then runCb (killAt s1 i) cb rnd
          else { s1 with timers := s1.timers.set i ⟨t.delay, .fade ch startVol endVol step1 cb, true⟩ }
    else s

end AudioManager

/-- Advance simulated time: each element picks a registry index whose
timer (if live) fires, together with the random draws its body consumes.
Quantifying over all such lists covers every firing order. -/
def advance (s : AMState) (evs : List (ℕ × Rand)) : AMState :=
  evs.foldl (fun st e => AudioManager.fireTimer st e.1 e.2) s

/-- The ended listener installed on the birds element by init: when the
clip finishes playing, the element stops and scheduleNextBird re-arms the
chain with a fresh random delay. -/
def fireBirdsEnded (s : AMState) (r : ℚ) : AMState :=
  if s.inited ∧ s.birds.playing then
    AudioManager.scheduleNextBird { s with birds := { s.birds with playing := false } } r
  else s

/-- The manager state right after the module-load call AudioManager.init(). -/
def loaded : AMState := AudioManager.init blank

/-- One fadeAudio envelope in isolation: the captured start and end
volumes, the stepTime local (duration / 60, unused by the step logic),
the step counter, the current channel volume, how many times the
completion callback has run, and whether the interval is still armed. -/
structure FadeRun where
  startVol : ℚ
  endVol : ℚ
  stepTime : ℚ
  step : ℕ
  vol : ℚ
  cbCount : ℕ
  live : Bool
deriving DecidableEq

/-- The envelope state right after fadeAudio(audio, startVol, endVol,
duration, cb) returns, with the channel at volume v0. -/
def FadeRun.mk0 (startVol endVol duration v0 : ℚ) : FadeRun :=
  ⟨startVol, endVol, duration / 60, 0, v0, 0, true⟩

/-- Events affecting one envelope: a firing of its interval callback, or
the clearing of its interval (as performed by AudioManager.stop). -/
inductive FadeEv where
  | tick
  | cancel
deriving DecidableEq

/-- One event step of an envelope. A tick on a live interval increments
the step counter, writes the clamped interpolated volume, and on reaching
sixty steps clears the interval and runs the callback once; events on a
dead interval do nothing. -/
def FadeRun.stepOnce (f : FadeRun) (e : FadeEv) : FadeRun :=
  match e with
  | .cancel => { f with live := false }
  | .tick =>
      if f.live then
        let s1 := f.step + 1
        let f1 := { f with step := s1, vol := fadeVol f.startVol f.endVol s1 }
        if 60 ≤ s1 then { f1 with cbCount := f.cbCount + 1, live := false } else f1
      else f

/-- Run an envelope through a list of events. -/
def FadeRun.run (f : FadeRun) (evs : List FadeEv) : FadeRun :=
  evs.foldl FadeRun.stepOnce f

end SharedEnv

namespace SharedEnv

lemma FadeRun.run_nil (f : FadeRun) : f.run [] = f := rfl

lemma FadeRun.run_cons (f : FadeRun) (e : FadeEv) (evs : List FadeEv) :
    f.run (e :: evs) = (f.stepOnce e).run evs := rfl

lemma FadeRun.run_append (f : FadeRun) (l1 l2 : List FadeEv) :
    f.run (l1 ++ l2) = (f.run l1).run l2 := by
  simp [FadeRun.run, List.foldl_append]

lemma FadeRun.stepOnce_dead (f : FadeRun) (e : FadeEv) (h : f.live = false) :
    f.stepOnce e = f := by
  cases f
  cases e <;> simp_all [FadeRun.stepOnce]

lemma FadeRun.run_dead (f : FadeRun) (evs : List FadeEv) (h : f.live = false) :
    f.run evs = f := by
  induction evs with
  | nil => rfl
  | cons e evs ih => rw [FadeRun.run_cons, FadeRun.stepOnce_dead f e h]; exact ih

/-- Reachability invariant of one envelope: while the interval is live the
step count is below sixty and the callback has not run; once dead, either
the envelope completed (step sixty, callback ran once) or it was cancelled
early (step below sixty, callback never ran). -/
def FadeInv (f : FadeRun) : Prop :=
  (f.live = true → f.step < 60 ∧ f.cbCount = 0) ∧
  (f.live = false → (f.step = 60 ∧ f.cbCount = 1) ∨ (f.step < 60 ∧ f.cbCount = 0))

lemma fadeInv_mk0 (sv ev dur v0 : ℚ) : FadeInv (FadeRun.mk0 sv ev dur v0) := by
  constructor <;> simp [FadeRun.mk0]

lemma fadeInv_step {f : FadeRun} (h : FadeInv f) (e : FadeEv) : FadeInv (f.stepOnce e) := by
  obtain ⟨sv, ev, st, stp, v, cb, l⟩ := f
  obtain ⟨h1, h2⟩ := h
  unfold FadeInv at *
  cases e <;> cases l <;>
    simp_all [FadeRun.stepOnce] <;>
    split_ifs <;> simp_all <;> omega

lemma fadeInv_run {f : FadeRun} (h : FadeInv f) (evs : List FadeEv) : FadeInv (f.run evs) := by
  induction evs generalizing f with
  | nil => exact h
  | cons e evs ih => exact ih (fadeInv_step h e)

end SharedEnv

namespace SharedEnv

lemma fadeVol_nonneg (sv ev : ℚ) (n : ℕ) : 0 ≤ fadeVol sv ev n :=
  le_max_left 0 _

lemma fadeVol_le_one (sv ev : ℚ) (n : ℕ) : fadeVol sv ev n ≤ 1 :=
  max_le zero_le_one (min_le_left 1 _)

lemma FadeRun.stepOnce_tick_live (f : FadeRun) (hl : f.live = true)
    (h60 : ¬ 60 ≤ f.step + 1) :
    f.stepOnce FadeEv.tick
      = { f with step := f.step + 1, vol := fadeVol f.startVol f.endVol (f.step + 1) } := by
  obtain ⟨sv, ev, st, stp, v, cb, l⟩ := f
  have hl' : l = true := hl
  subst hl'
  have h60' : ¬ 60 ≤ stp + 1 := h60
  simp [FadeRun.stepOnce, h60']

lemma FadeRun.stepOnce_tick_complete (f : FadeRun) (hl : f.live = true)
    (h60 : 60 ≤ f.step + 1) :
    f.stepOnce FadeEv.tick
      = { f with
          step := f.step + 1
          vol := fadeVol f.startVol f.endVol (f.step + 1)
          cbCount := f.cbCount + 1
          live := false } := by
  obtain ⟨sv, ev, st, stp, v, cb, l⟩ := f
  have hl' : l = true := hl
  subst hl'
  have h60' : 60 ≤ stp + 1 := h60
  simp [FadeRun.stepOnce, h60']

/-- Running a live envelope with step count below sixty through k
consecutive interval ticks, with k small enough to stay within the
envelope, advances the step counter by exactly k, keeps the interval live
exactly while the counter stays below sixty, bumps the callback count
exactly on reaching sixty, and leaves the volume at the interpolation
value of the step reached. -/
lemma FadeRun.run_ticks (k : ℕ) (f : FadeRun) (hl : f.live = true)
    (hs : f.step < 60) (hk : f.step + k ≤ 60) :
    (f.run (List.replicate k FadeEv.tick)).step = f.step + k ∧
    ((f.run (List.replicate k FadeEv.tick)).live = true ↔ f.step + k < 60) ∧
    (f.run (List.replicate k FadeEv.tick)).cbCount
      = (if f.step + k = 60 then f.cbCount + 1 else f.cbCount) ∧
    (f.run (List.replicate k FadeEv.tick)).vol
      = (if k = 0 then f.vol else fadeVol f.startVol f.endVol (f.step + k)) ∧
    (f.run (List.replicate k FadeEv.tick)).startVol = f.startVol ∧
    (f.run (List.replicate k FadeEv.tick)).endVol = f.endVol := by
  induction k generalizing f with
  | zero =>
    have hrep : List.replicate 0 FadeEv.tick = ([] : List FadeEv) := rfl
    rw [hrep, FadeRun.run_nil]
    refine ⟨by omega, ⟨fun _ => by omega, fun _ => hl⟩, ?_, ?_, rfl, rfl⟩
    · rw [if_neg (show ¬ f.step + 0 = 60 by omega)]
    · rw [if_pos rfl]
  | succ k ih =>
    rw [List.replicate_succ, FadeRun.run_cons]
    by_cases h60 : 60 ≤ f.step + 1
    · have hk0 : k = 0 := by omega
      subst hk0
      rw [FadeRun.stepOnce_tick_complete f hl h60]
      have hdead : ({ f with
          step := f.step + 1
          vol := fadeVol f.startVol f.endVol (f.step + 1)
          cbCount := f.cbCount + 1
          live := false } : FadeRun).live = false := rfl
      rw [FadeRun.run_dead _ _ hdead]
      refine ⟨by show f.step + 1 = f.step + (0 + 1); omega,
        by show (false = true) ↔ f.step + (0 + 1) < 60; simp; omega, ?_, ?_, rfl, rfl⟩
      · show f.cbCount + 1 = if f.step + (0 + 1) = 60 then f.cbCount + 1 else f.cbCount
        rw [if_pos (show f.step + (0 + 1) = 60 by omega)]
      · show fadeVol f.startVol f.endVol (f.step + 1)
            = if 0 + 1 = 0 then f.vol else fadeVol f.startVol f.endVol (f.step + (0 + 1))
        rw [if_neg (show ¬ (0 + 1 = 0) by omega),
          show f.step + (0 + 1) = f.step + 1 by omega]
    · rw [FadeRun.stepOnce_tick_live f hl h60]
      obtain ⟨ih1, ih2, ih3, ih4, ih5, ih6⟩ :=
        ih { f with
            step := f.step + 1
            vol := fadeVol f.startVol f.endVol (f.step + 1) }
          (show _ = true from hl) (by show f.step + 1 < 60; omega)
          (by show f.step + 1 + k ≤ 60; omega)
      have ih1' : (FadeRun.run { f with
            step := f.step + 1
            vol := fadeVol f.startVol f.endVol (f.step + 1) }
          (List.replicate k FadeEv.tick)).step = f.step + 1 + k := ih1
      have ih2' : ((FadeRun.run { f with
            step := f.step + 1
            vol := fadeVol f.startVol f.endVol (f.step + 1) }
          (List.replicate k FadeEv.tick)).live = true ↔ f.step + 1 + k < 60) := ih2
      have ih3' : (FadeRun.run { f with
            step := f.step + 1
            vol := fadeVol f.startVol f.endVol (f.step + 1) }
          (List.replicate k FadeEv.tick)).cbCount
          = (if f.step + 1 + k = 60 then f.cbCount + 1 else f.cbCount) := ih3
      have ih4' : (FadeRun.run { f with
            step := f.step + 1
            vol := fadeVol f.startVol f.endVol (f.step + 1) }
          (List.replicate k FadeEv.tick)).vol
          = (if k = 0 then fadeVol f.startVol f.endVol (f.step + 1)
              else fadeVol f.startVol f.endVol (f.step + 1 + k)) := ih4
      have ih5' : (FadeRun.run { f with
            step := f.step + 1
            vol := fadeVol f.startVol f.endVol (f.step + 1) }
          (List.replicate k FadeEv.tick)).startVol = f.startVol := ih5
      have ih6' : (FadeRun.run { f with
            step := f.step + 1
            vol := fadeVol f.startVol f.endVol (f.step + 1) }
          (List.replicate k FadeEv.tick)).endVol = f.endVol := ih6
      rw [ih1', ih3', ih4', ih5', ih6]
      refine ⟨by omega, ?_, ?_, ?_, rfl, rfl⟩
      · rw [ih2']; omega
      · by_cases hc : f.step + (k + 1) = 60
        · rw [if_pos (show f.step + 1 + k = 60 by omega), if_pos hc]
        · rw [if_neg (show ¬ f.step + 1 + k = 60 by omega), if_neg hc]
      · rw [if_neg (show ¬ (k + 1 = 0) by omega)]
        by_cases hk0 : k = 0
        · subst hk0
          rw [if_pos rfl, show f.step + (0 + 1) = f.step + 1 by omega]
        · rw [if_neg hk0, show f.step + 1 + k = f.step + (k + 1) by omega]

lemma FadeRun.run_vol_bounds (evs : List FadeEv) (f : FadeRun)
    (h0 : 0 ≤ f.vol) (h1 : f.vol ≤ 1) :
    0 ≤ (f.run evs).vol ∧ (f.run evs).vol ≤ 1 := by
  induction evs generalizing f with
  | nil => exact ⟨h0, h1⟩
  | cons e evs ih =>
    rw [FadeRun.run_cons]
    refine ih _ ?_ ?_ <;>
    · obtain ⟨sv, ev, st, stp, v, cb, l⟩ := f
      cases e <;> cases l <;>
        simp_all [FadeRun.stepOnce] <;>
        split_ifs <;>
        first
        | exact fadeVol_nonneg _ _ _
        | exact fadeVol_le_one _ _ _
        | assumption

end SharedEnv

namespace SharedEnv

/-- The final step of the interpolation formula lands exactly on the end
volume clamped to the unit interval: in exact arithmetic the accumulated
per step delta reaches endVol at step sixty. -/
lemma fadeVol_sixty (sv ev : ℚ) : fadeVol sv ev 60 = clamp01 ev := by
  unfold fadeVol
  congr 1
  push_cast
  ring

/-- C4: for every fadeAudio invocation, the completion callback has run
exactly once precisely when the envelope has run through all sixty steps;
and when the interval is cleared (as stop does) while the step count is
still below sixty, the callback count stays zero for the rest of the run,
so the callback never fires. -/
theorem claim_C4 (sv ev dur v0 : ℚ) (evs l1 l2 : List FadeEv)
    (hsplit : evs = l1 ++ FadeEv.cancel :: l2)
    (hmid : ((FadeRun.mk0 sv ev dur v0).run l1).step < 60) :
    (∀ evs2 : List FadeEv,
        (((FadeRun.mk0 sv ev dur v0).run evs2).cbCount = 1 ↔
          60 ≤ ((FadeRun.mk0 sv ev dur v0).run evs2).step)) ∧
    ((FadeRun.mk0 sv ev dur v0).run evs).cbCount = 0 := by
  have hinv : ∀ evs2 : List FadeEv, FadeInv ((FadeRun.mk0 sv ev dur v0).run evs2) :=
    fun evs2 => fadeInv_run (fadeInv_mk0 sv ev dur v0) evs2
  constructor
  · intro evs2
    obtain ⟨h1, h2⟩ := hinv evs2
    rcases hb : ((FadeRun.mk0 sv ev dur v0).run evs2).live with _ | _
    · rcases h2 hb with ⟨ha, hc⟩ | ⟨ha, hc⟩ <;> rw [hc] <;> constructor <;> intro <;> omega
    · obtain ⟨ha, hc⟩ := h1 hb
      rw [hc]
      constructor <;> intro <;> omega
  · subst hsplit
    rw [FadeRun.run_append, FadeRun.run_cons]
    have hinv1 := hinv l1
    have hcb : ((FadeRun.mk0 sv ev dur v0).run l1).cbCount = 0 := by
      rcases hb : ((FadeRun.mk0 sv ev dur v0).run l1).live with _ | _
      · rcases hinv1.2 hb with ⟨ha, hc⟩ | ⟨ha, hc⟩
        · omega
        · exact hc
      · exact (hinv1.1 hb).2
    have hco : ((FadeRun.mk0 sv ev dur v0).run l1).stepOnce FadeEv.cancel
        = { (FadeRun.mk0 sv ev dur v0).run l1 with live := false } := rfl
    rw [hco, FadeRun.run_dead _ _ rfl]
    exact hcb

/-- Witness for C4 at a concrete input: one tick, then a cancel before
the final step, then one more tick; the callback count stays zero, and
the count equals one exactly when the step counter reached sixty. -/
theorem claim_C4_witness :
    (((FadeRun.mk0 0 1 5000 0).run [FadeEv.tick, FadeEv.cancel, FadeEv.tick]).cbCount = 1 ↔
      60 ≤ ((FadeRun.mk0 0 1 5000 0).run [FadeEv.tick, FadeEv.cancel, FadeEv.tick]).step) ∧
    ((FadeRun.mk0 0 1 5000 0).run [FadeEv.tick, FadeEv.cancel, FadeEv.tick]).cbCount = 0 :=
  ⟨(claim_C4 0 1 5000 0 [FadeEv.tick, FadeEv.cancel, FadeEv.tick]
      [FadeEv.tick] [FadeEv.tick] rfl (by decide)).1
      [FadeEv.tick, FadeEv.cancel, FadeEv.tick],
   (claim_C4 0 1 5000 0 [FadeEv.tick, FadeEv.cancel, FadeEv.tick]
      [FadeEv.tick] [FadeEv.tick] rfl (by decide)).2⟩

/-- C5: every volume value an envelope step writes is the clamped
interpolation value and lies in the unit interval, whatever the sign or
magnitude of the start and end volumes; consequently a channel whose
volume starts in the unit interval keeps it there through any sequence of
envelope events. -/
theorem claim_C5 (sv ev : ℚ) (n : ℕ) (dur v0 : ℚ) (evs : List FadeEv)
    (h0 : 0 ≤ v0) (h1 : v0 ≤ 1) :
    (0 ≤ fadeVol sv ev n ∧ fadeVol sv ev n ≤ 1) ∧
    0 ≤ ((FadeRun.mk0 sv ev dur v0).run evs).vol ∧
      ((FadeRun.mk0 sv ev dur v0).run evs).vol ≤ 1 :=
  ⟨⟨fadeVol_nonneg sv ev n, fadeVol_le_one sv ev n⟩,
   FadeRun.run_vol_bounds evs _ h0 h1⟩

/-- Witness for C5 at a concrete input with out of range volumes: a fade
from five to minus three still writes volumes inside the unit interval. -/
theorem claim_C5_witness :
    (0 ≤ fadeVol 5 (-3) 7 ∧ fadeVol 5 (-3) 7 ≤ 1) ∧
    0 ≤ ((FadeRun.mk0 5 (-3) 100 1).run [FadeEv.tick]).vol ∧
      ((FadeRun.mk0 5 (-3) 100 1).run [FadeEv.tick]).vol ≤ 1 :=
  claim_C5 5 (-3) 7 100 1 [FadeEv.tick] zero_le_one le_rfl

/-- C10: an envelope that is never cancelled terminates: after sixty
interval ticks the step counter is exactly sixty, the interval has
cleared itself, the callback ran once, and any further ticks change
nothing; this holds for every duration argument, zero and negative
included, since the duration only sets the interval cadence. -/
theorem claim_C10 (sv ev dur v0 : ℚ) (n : ℕ) :
    ((FadeRun.mk0 sv ev dur v0).run (List.replicate (60 + n) FadeEv.tick)).step = 60 ∧
    ((FadeRun.mk0 sv ev dur v0).run (List.replicate (60 + n) FadeEv.tick)).live = false ∧
    ((FadeRun.mk0 sv ev dur v0).run (List.replicate (60 + n) FadeEv.tick)).cbCount = 1 := by
  rw [List.replicate_add, FadeRun.run_append]
  obtain ⟨h1, h2, h3, h4, h5, h6⟩ :=
    FadeRun.run_ticks 60 (FadeRun.mk0 sv ev dur v0) rfl
      (by show (0:ℕ) < 60; omega) (by show 0 + 60 ≤ 60; omega)
  have h1' : ((FadeRun.mk0 sv ev dur v0).run (List.replicate 60 FadeEv.tick)).step = 60 := h1
  have h3' : ((FadeRun.mk0 sv ev dur v0).run (List.replicate 60 FadeEv.tick)).cbCount = 1 := h3
  have hlive : ((FadeRun.mk0 sv ev dur v0).run (List.replicate 60 FadeEv.tick)).live = false := by
    rcases hb : ((FadeRun.mk0 sv ev dur v0).run (List.replicate 60 FadeEv.tick)).live with _ | _
    · rfl
    · exfalso
      have hx := h2.mp hb
      have hx' : (0:ℕ) + 60 < 60 := hx
      omega
  rw [FadeRun.run_dead _ _ hlive]
  exact ⟨h1', hlive, h3'⟩

end SharedEnv

namespace SharedEnv

/-- C6 counterexample: a fade from zero to endVol two run to completion
finishes with a written volume of one, not endVol, because the final step
writes the clamped interpolation value and there is no separate explicit
assignment of endVol; the claim that the final written volume always
equals endVol is therefore false at this input. -/
theorem claim_C6_counterexample :
    ((FadeRun.mk0 0 2 5000 0).run (List.replicate 60 FadeEv.tick)).cbCount = 1 ∧
    ((FadeRun.mk0 0 2 5000 0).run (List.replicate 60 FadeEv.tick)).vol = 1 ∧
    ((FadeRun.mk0 0 2 5000 0).run (List.replicate 60 FadeEv.tick)).vol ≠ 2 := by
  obtain ⟨h1, h2, h3, h4, h5, h6⟩ :=
    FadeRun.run_ticks 60 (FadeRun.mk0 0 2 5000 0) rfl
      (by show (0:ℕ) < 60; omega) (by show 0 + 60 ≤ 60; omega)
  have h3' : ((FadeRun.mk0 0 2 5000 0).run (List.replicate 60 FadeEv.tick)).cbCount = 1 := h3
  have h4' : ((FadeRun.mk0 0 2 5000 0).run (List.replicate 60 FadeEv.tick)).vol
      = fadeVol 0 2 60 := h4
  have hv : fadeVol 0 2 60 = 1 := by
    rw [fadeVol_sixty]
    unfold clamp01
    rw [min_eq_left (by norm_num), max_eq_right (by norm_num)]
  refine ⟨h3', by rw [h4', hv], by rw [h4', hv]; norm_num⟩

/-- C6 amended: on the final, sixtieth step the written volume is the
interpolation value, which in exact arithmetic equals the end volume
clamped to the unit interval (so it equals endVol exactly whenever endVol
lies in the unit interval); the code reaches the target through the
accumulated per step formula, with no separate final assignment. In
particular a fade from zero to four fifths run to completion ends with
volume exactly four fifths. -/
theorem claim_C6_amended (sv ev : ℚ) (h0 : 0 ≤ ev) (h1 : ev ≤ 1) :
    fadeVol sv ev 60 = clamp01 ev ∧
    fadeVol sv ev 60 = ev ∧
    ((FadeRun.mk0 0 (4/5) 5000 0).run (List.replicate 60 FadeEv.tick)).vol = 4/5 := by
  have hcl : clamp01 ev = ev := by
    unfold clamp01
    rw [min_eq_right h1, max_eq_right h0]
  refine ⟨fadeVol_sixty sv ev, by rw [fadeVol_sixty, hcl], ?_⟩
  obtain ⟨h1x, h2x, h3x, h4x, h5x, h6x⟩ :=
    FadeRun.run_ticks 60 (FadeRun.mk0 0 (4/5) 5000 0) rfl
      (by show (0:ℕ) < 60; omega) (by show 0 + 60 ≤ 60; omega)
  have h4' : ((FadeRun.mk0 0 (4/5) 5000 0).run (List.replicate 60 FadeEv.tick)).vol
      = fadeVol 0 (4/5) 60 := h4x
  rw [h4', fadeVol_sixty]
  unfold clamp01
  rw [min_eq_right (by norm_num), max_eq_right (by norm_num)]

/-- Witness for C6 at the concrete end volume one: the final step lands
exactly on one, and the four fifths fade of the claim ends at four
fifths. -/
theorem claim_C6_witness :
    fadeVol 0 1 60 = clamp01 1 ∧
    fadeVol 0 1 60 = 1 ∧
    ((FadeRun.mk0 0 (4/5) 5000 0).run (List.replicate 60 FadeEv.tick)).vol = 4/5 :=
  claim_C6_amended 0 1 zero_le_one le_rfl

end SharedEnv

namespace SharedEnv

lemma setCh_timers (s : AMState) (c : ChId) (a : Audio) :
    (setCh s c a).timers = s.timers := by
  cases c <;> rfl

lemma setVol_timers (s : AMState) (c : ChId) (v : ℚ) :
    (setVol s c v).timers = s.timers :=
  setCh_timers s c _

lemma setVol_getElem (s : AMState) (c : ChId) (v : ℚ) (i : ℕ) :
    (setVol s c v).timers[i]? = s.timers[i]? := by
  rw [setVol_timers]

lemma killAt_of_get {s : AMState} {i : ℕ} {t : Timer} (h : s.timers[i]? = some t) :
    killAt s i = { s with timers := s.timers.set i { t with live := false } } := by
  unfold killAt
  rw [h]

lemma fireTimer_of_none {s : AMState} {i : ℕ} (r : Rand) (h : s.timers[i]? = none) :
    AudioManager.fireTimer s i r = s := by
  unfold AudioManager.fireTimer
  rw [h]

lemma fireTimer_empty (s : AMState) (i : ℕ) (r : Rand) (h : s.timers = []) :
    AudioManager.fireTimer s i r = s :=
  fireTimer_of_none r (by rw [h]; exact List.getElem?_nil)

lemma advance_nil (s : AMState) : advance s [] = s := rfl

lemma advance_cons (s : AMState) (e : ℕ × Rand) (evs : List (ℕ × Rand)) :
    advance s (e :: evs) = advance (AudioManager.fireTimer s e.1 e.2) evs := rfl

lemma advance_empty (s : AMState) (evs : List (ℕ × Rand)) (h : s.timers = []) :
    advance s evs = s := by
  induction evs with
  | nil => rfl
  | cons e evs ih => rw [advance_cons, fireTimer_empty s e.1 e.2 h]; exact ih

/-- C1: stop clears the whole timer registry, so after stop returns,
advancing simulated time through any sequence of timer firings executes
no callback at all and leaves the state, playback and volumes included,
exactly as stop left it; this covers the bird and waves2 timeouts, the
swell hold timeout and every fadeAudio interval, since all of them were
registered in the timers array that stop clears. -/
theorem claim_C1 (s : AMState) (evs : List (ℕ × Rand)) :
    (AudioManager.stop s).timers = [] ∧
    advance (AudioManager.stop s) evs = AudioManager.stop s := by
  have ht : (AudioManager.stop s).timers = [] := by
    unfold AudioManager.stop
    split <;> rfl
  exact ⟨ht, advance_empty _ evs ht⟩

set_option maxRecDepth 100000 in
/-- C2 counterexample: two fadeAudio calls on the waves2 channel, the
second issued while the first envelope is still running; firing both
intervals to completion runs both completion callbacks, the callback of
the first, supposedly superseded, envelope included, so the second call
does not cancel the first. -/
theorem claim_C2_counterexample :
    (advance
        (AudioManager.fadeAudio
          (AudioManager.fadeAudio loaded .waves2 0 1 600 (.user 1))
          .waves2 (1/2) 0 1200 (.user 2))
        (List.replicate 60 ((0:ℕ), ⟨0, 0, 0, 0⟩)
          ++ List.replicate 60 ((1:ℕ), ⟨0, 0, 0, 0⟩))).firedCbs = [1, 2] := by
  decide

/-- C2 amended: fadeAudio never cancels or supersedes an existing
envelope; it only appends one fresh interval entry to the registry,
leaving every earlier timer, envelopes on the same channel included,
untouched and running, and when two overlapping envelopes on one channel
both complete, both completion callbacks fire. -/
theorem claim_C2_amended (s : AMState) (ch : ChId) (sv ev dur : ℚ) (cb : FadeCb) :
    (AudioManager.fadeAudio s ch sv ev dur cb).timers
      = s.timers ++ [⟨dur / 60, .fade ch sv ev 0 cb, true⟩] := rfl

/-- C8: init is idempotent, running it twice produces exactly the state of
running it once, and init starts no playback: all three channels it
creates are paused; it also leaves the timer registry untouched. -/
theorem claim_C8 (s : AMState) :
    AudioManager.init (AudioManager.init s) = AudioManager.init s ∧
    (AudioManager.init s).waves.playing = false ∧
    (AudioManager.init s).birds.playing = false ∧
    (AudioManager.init s).waves2.playing = false ∧
    (AudioManager.init s).timers = s.timers :=
  ⟨rfl, rfl, rfl, rfl, rfl⟩

/-- C9: with the random draw anywhere in the unit half open interval, the
delay sampled for the bird cue chain lies in the half open range from
8000 to 25000 milliseconds, and scheduleNextBird arms exactly one timer
carrying that delay. -/
theorem claim_C9 (s : AMState) (r : ℚ) (h0 : 0 ≤ r) (h1 : r < 1) :
    8000 ≤ birdDelay r ∧ birdDelay r < 25000 ∧
    (AudioManager.scheduleNextBird s r).timers
      = s.timers ++ [⟨birdDelay r, .birdFire, true⟩] := by
  refine ⟨?_, ?_, rfl⟩
  · unfold birdDelay
    nlinarith
  · unfold birdDelay
    nlinarith

/-- Witness for C9 at the random draw zero: the sampled delay is within
the configured range and one bird timer is armed with it. -/
theorem claim_C9_witness :
    8000 ≤ birdDelay 0 ∧ birdDelay 0 < 25000 ∧
    (AudioManager.scheduleNextBird blank 0).timers
      = blank.timers ++ [⟨birdDelay 0, .birdFire, true⟩] :=
  claim_C9 blank 0 le_rfl zero_lt_one

end SharedEnv

namespace SharedEnv

lemma start_inited (s : AMState) (r1 r2 : ℚ) :
    (AudioManager.start s r1 r2).inited = true := by
  unfold AudioManager.start AudioManager.scheduleWaves2 AudioManager.scheduleNextBird pushTimer
  by_cases h : s.inited = true <;> simp [h, AudioManager.init]

lemma start_waves_playing (s : AMState) (r1 r2 : ℚ) :
    (AudioManager.start s r1 r2).waves.playing = true := by
  unfold AudioManager.start AudioManager.scheduleWaves2 AudioManager.scheduleNextBird pushTimer
  by_cases h : s.inited = true <;> simp [h, AudioManager.init]

lemma Audio.update_playing_true (a : Audio) (h : a.playing = true) :
    ({ a with playing := true } : Audio) = a := by
  cases a
  simp_all

/-- On a state that already has its channels allocated and the waves loop
playing, start reduces to arming one fresh bird timer and one fresh
waves2 timer. -/
lemma start_of_started (s : AMState) (h1 : s.inited = true) (h2 : s.waves.playing = true)
    (r3 r4 : ℚ) :
    AudioManager.start s r3 r4
      = pushTimer (pushTimer s ⟨birdDelay r3, .birdFire, true⟩)
          ⟨waves2Delay r4, .waves2Start, true⟩ := by
  unfold AudioManager.start AudioManager.scheduleWaves2 AudioManager.scheduleNextBird
  rw [if_pos h1]
  dsimp only
  rw [Audio.update_playing_true s.waves h2]

/-- C3 counterexample: from the module load state, one start call arms
two timers (the bird chain and the waves2 chain), but a second start call
arms two more, for four armed timers in total; the second call is
therefore not a no-op and double-arms both chains. -/
theorem claim_C3_counterexample :
    (AudioManager.start (AudioManager.start loaded 0 0) 0 0).timers.length = 4 ∧
    (AudioManager.start loaded 0 0).timers.length = 2 ∧
    AudioManager.start (AudioManager.start loaded 0 0) 0 0 ≠ AudioManager.start loaded 0 0 := by
  have h4 : (AudioManager.start (AudioManager.start loaded 0 0) 0 0).timers.length = 4 := by
    decide
  have h2 : (AudioManager.start loaded 0 0).timers.length = 2 := by decide
  refine ⟨h4, h2, fun h => ?_⟩
  rw [h, h2] at h4
  exact absurd h4 (by decide)

/-- C3 amended: start is not idempotent; a second start call from the
started state leaves the channels unchanged but appends one more bird
timer and one more waves2 timer to the registry, so each extra call arms
two additional chain timers instead of being a no-op. -/
theorem claim_C3_amended (s : AMState) (r1 r2 r3 r4 : ℚ) :
    AudioManager.start (AudioManager.start s r1 r2) r3 r4
      = pushTimer (pushTimer (AudioManager.start s r1 r2) ⟨birdDelay r3, .birdFire, true⟩)
          ⟨waves2Delay r4, .waves2Start, true⟩ ∧
    (AudioManager.start (AudioManager.start s r1 r2) r3 r4).timers.length
      = (AudioManager.start s r1 r2).timers.length + 2 := by
  have h := start_of_started (AudioManager.start s r1 r2)
    (start_inited s r1 r2) (start_waves_playing s r1 r2) r3 r4
  refine ⟨h, ?_⟩
  rw [h]
  simp [pushTimer]

end SharedEnv

namespace SharedEnv

/-- Firing a live bird timer spends that registry entry and arms nothing
new: the timer count does not grow, so the bird chain is not re-armed by
its own firing. -/
lemma fireTimer_birdFire {s : AMState} {i : ℕ} {d : ℚ} (r : Rand)
    (h : s.timers[i]? = some ⟨d, .birdFire, true⟩) :
    (AudioManager.fireTimer s i r).timers = s.timers.set i ⟨d, .birdFire, false⟩ := by
  unfold AudioManager.fireTimer
  rw [h]
  dsimp only
  rw [if_pos (rfl : (true : Bool) = true), killAt_of_get h]
  split <;> rfl

/-- Completing the fade out of a swell (a fade interval on waves2 at step
fifty nine whose callback is the swell fade out completion) spends the
interval and arms one fresh waves2 timer: this is where the swell chain
re-arms. -/
lemma fireTimer_fadeOut_complete {s : AMState} {j : ℕ} {d sv ev : ℚ} (r : Rand)
    (h : s.timers[j]? = some ⟨d, .fade .waves2 sv ev 59 .swellDown, true⟩) :
    (AudioManager.fireTimer s j r).timers
      = s.timers.set j ⟨d, .fade .waves2 sv ev 59 .swellDown, false⟩
          ++ [⟨waves2Delay r.r1, .waves2Start, true⟩] := by
  unfold AudioManager.fireTimer
  rw [h]
  dsimp only
  rw [if_pos (rfl : (true : Bool) = true)]
  rw [if_pos (show 60 ≤ 59 + 1 by omega)]
  have h' : (setVol s .waves2 (fadeVol sv ev (59 + 1))).timers[j]?
      = some ⟨d, .fade .waves2 sv ev 59 .swellDown, true⟩ := by
    rw [setVol_getElem]
    exact h
  rw [killAt_of_get h']
  unfold AudioManager.runCb AudioManager.scheduleWaves2 pushTimer
  dsimp only
  rw [setVol_timers]

/-- The ended listener on the playing birds element re-arms the bird
chain: it appends one fresh bird timer with a freshly sampled delay. -/
lemma fireBirdsEnded_timers (s : AMState) (r : ℚ) (hin : s.inited = true)
    (hp : s.birds.playing = true) :
    (fireBirdsEnded s r).timers = s.timers ++ [⟨birdDelay r, .birdFire, true⟩] := by
  unfold fireBirdsEnded AudioManager.scheduleNextBird pushTimer
  rw [if_pos ⟨hin, hp⟩]

/-- C7 counterexample: a live bird timer fires from a state where it is
the only registry entry; the firing performs its effect (the birds clip
plays) but arms no new timer, the registry holds only the spent entry, so
this cue chain firing does not re-arm itself through the scheduler. -/
theorem claim_C7_counterexample :
    (AudioManager.fireTimer { loaded with timers := [⟨9000, .birdFire, true⟩] } 0
        ⟨0, 0, 0, 0⟩).timers = [⟨9000, .birdFire, false⟩] ∧
    (AudioManager.fireTimer { loaded with timers := [⟨9000, .birdFire, true⟩] } 0
        ⟨0, 0, 0, 0⟩).birds.playing = true := by
  decide

/-- C7 amended: a bird timer firing spends its entry and arms nothing;
the bird chain re-arms only through the ended listener on the birds
element, which appends a fresh bird timer with a fresh random delay, and
the swell chain re-arms only when its fade out interval completes, which
appends a fresh waves2 timer; so each chain perpetuates itself, but not
in the firing that performs its effect. -/
theorem claim_C7_amended
    (s : AMState) (i : ℕ) (d : ℚ) (r : Rand)
    (hbird : s.timers[i]? = some ⟨d, .birdFire, true⟩)
    (s2 : AMState) (j : ℕ) (d2 sv ev : ℚ) (r2 : Rand)
    (hfade : s2.timers[j]? = some ⟨d2, .fade .waves2 sv ev 59 .swellDown, true⟩)
    (s3 : AMState) (r3 : ℚ) (hin : s3.inited = true) (hp : s3.birds.playing = true) :
    (AudioManager.fireTimer s i r).timers = s.timers.set i ⟨d, .birdFire, false⟩ ∧
    (AudioManager.fireTimer s2 j r2).timers
      = s2.timers.set j ⟨d2, .fade .waves2 sv ev 59 .swellDown, false⟩
          ++ [⟨waves2Delay r2.r1, .waves2Start, true⟩] ∧
    (fireBirdsEnded s3 r3).timers = s3.timers ++ [⟨birdDelay r3, .birdFire, true⟩] :=
  ⟨fireTimer_birdFire r hbird, fireTimer_fadeOut_complete r2 hfade,
   fireBirdsEnded_timers s3 r3 hin hp⟩

/-- Witness for C7 at concrete states: a lone bird timer fires without
re-arming; a swell fade out interval at its last step completes and arms
one waves2 timer; the ended listener on a playing birds element arms one
bird timer. -/
theorem claim_C7_witness :
    (AudioManager.fireTimer { loaded with timers := [⟨9000, .birdFire, true⟩] } 0
        ⟨0, 0, 0, 0⟩).timers
      = ({ loaded with timers := [⟨9000, .birdFire, true⟩] } : AMState).timers.set 0
          ⟨9000, .birdFire, false⟩ ∧
    (AudioManager.fireTimer
        { loaded with timers := [⟨50, .fade .waves2 1 0 59 .swellDown, true⟩] } 0
        ⟨0, 0, 0, 0⟩).timers
      = ({ loaded with timers := [⟨50, .fade .waves2 1 0 59 .swellDown, true⟩] }
          : AMState).timers.set 0 ⟨50, .fade .waves2 1 0 59 .swellDown, false⟩
          ++ [⟨waves2Delay 0, .waves2Start, true⟩] ∧
    (fireBirdsEnded { loaded with birds := { loaded.birds with playing := true } } 0).timers
      = ({ loaded with birds := { loaded.birds with playing := true } } : AMState).timers
          ++ [⟨birdDelay 0, .birdFire, true⟩] :=
  claim_C7_amended
    { loaded with timers := [⟨9000, .birdFire, true⟩] } 0 9000 ⟨0, 0, 0, 0⟩ rfl
    { loaded with timers := [⟨50, .fade .waves2 1 0 59 .swellDown, true⟩] } 0 50 1 0 ⟨0, 0, 0, 0⟩ rfl
    { loaded with birds := { loaded.birds with playing := true } } 0 rfl rfl

end SharedEnv
